import Mathlib

/-
  Verification development for the local-assistant repository.

  Shallow embedding of the face-authentication core:
    * src/face_auth.py : `_euclid_dist`, `_knn`, `_load_face_bank`, `recognize_quick`,
      `choose_identity_from_faces_or_fallback`
    * src/repl.py      : `attempt_auto_identity`, the `run_repl` command loop
      (session identity, locking, persona switching, permission gating)
    * src/profiles.py  : `ensure_identity_struct`, `has_calendar_permission`
    * src/personas.py  : `PERSONAS`

  Numeric conventions: the source computes with Python/numpy floats, but the
  algorithms only add, subtract, multiply and compare these quantities, so the
  embedding carries them in `Int` (every concrete constant of the source -
  pixel values, 80, 100, 600, 2600 - is an integer).  Euclidean distances are
  carried as squared distances; the source compares `sqrt s > t`, which for
  `s ≥ 0` is equivalent to `t < 0 ∨ t * t < s`, the form used by `sqrtGt`
  below.  Sorting by squared distance orders identically to sorting by
  distance, and Python `list.sort` is stable, as is `List.insertionSort`.

  External collaborators (camera, cv2 detection, resize, Laplacian) are
  modelled at their interface: a captured frame is the data the pipeline
  extracts from it (detected boxes with their size, crop non-emptiness,
  sharpness score, and flattened 100x100 sample vector).
-/

namespace LocalAssistant

/-! ## Classifier (src/face_auth.py `_euclid_dist`, `_knn`) -/

/-- Squared Euclidean distance between two feature vectors.  The source
`_euclid_dist` returns `sqrt((v1 - v2)**2 . sum())`; we carry the square and
translate every comparison through `sqrtGt`. -/
def euclidSqDist (v1 v2 : List ℤ) : ℤ :=
  (List.zipWith (fun a b => (a - b) * (a - b)) v1 v2).sum

/-- `sqrtGt s t` holds exactly when `Real.sqrt s > t` for a nonnegative
squared distance `s`: either the threshold is negative (a nonnegative root
always exceeds it) or `t * t < s`. -/
def sqrtGt (s t : ℤ) : Prop := t < 0 ∨ t * t < s

instance (s t : ℤ) : Decidable (sqrtGt s t) :=
  inferInstanceAs (Decidable (_ ∨ _))

/-- One row of the training bank: a feature vector and its class id.
In `_load_face_bank` the class id column is a nonnegative `int32`, so the
label is carried as `Nat`. -/
structure LabeledVec where
  vec : List ℤ
  label : Nat
deriving DecidableEq, Repr

/-- Comparison used to sort `(distance, label)` pairs: `dists.sort(key=lambda t: t[0])`. -/
def distLe (a b : ℤ × Nat) : Prop := a.1 ≤ b.1

instance : DecidableRel distLe := fun a b => inferInstanceAs (Decidable (a.1 ≤ b.1))

instance : IsTotal (ℤ × Nat) distLe := ⟨fun a b => le_total a.1 b.1⟩

instance : IsTrans (ℤ × Nat) distLe := ⟨fun _ _ _ => le_trans⟩

/-- The list `dists` of `_knn`: squared distance from the test vector to each
bank row, paired with the row label, in bank order. -/
def knnDists (train : List LabeledVec) (testVec : List ℤ) : List (ℤ × Nat) :=
  train.map fun r => (euclidSqDist testVec r.vec, r.label)

/-- `dists.sort(key=lambda t: t[0])`: stable sort by distance. -/
def knnSorted (train : List LabeledVec) (testVec : List ℤ) : List (ℤ × Nat) :=
  List.insertionSort distLe (knnDists train testVec)

/-- `top = [lbl for _, lbl in dists[:k]]`: labels of the k nearest rows. -/
def knnTop (train : List LabeledVec) (testVec : List ℤ) (k : Nat) : List Nat :=
  ((knnSorted train testVec).take k).map Prod.snd

/-- `np.unique(top)`: the distinct labels of `top` in ascending order. -/
def npUnique (top : List Nat) : List Nat :=
  (top.insertionSort (· ≤ ·)).dedup

/-- `np.argmax` over `(value, count)` pairs, returning the pair itself: the
first pair whose count attains the maximum.  The source never evaluates it on
an empty list (`top` is nonempty whenever `_knn` reaches the majority step);
the `[]` case is a junk value. -/
def pickFirstMax : List (Nat × Nat) → Nat × Nat
  | [] => (0, 0)
  | [p] => p
  | p :: q :: rest =>
    let best := pickFirstMax (q :: rest)
    if best.2 ≤ p.2 then p else best

/-- `int(vals[np.argmax(counts)])` where
`vals, counts = np.unique(top, return_counts=True)`. -/
def majorityLabel (top : List Nat) : Nat :=
  (pickFirstMax ((npUnique top).map fun v => (v, top.count v))).1

/-- `_knn(train, test_vec, k, threshold)`.  Result encoding:
`some (-1)` is the rejection return of the source (`return -1`), a
nonnegative `some cid` is a class id, and `none` models the `IndexError` the
source raises at `dists[0]` when the bank is empty (its callers guarantee a
nonempty bank; no distance comparison happens before the failure). -/
def knn (train : List LabeledVec) (testVec : List ℤ) (k : Nat) (threshold : ℤ) :
    Option ℤ :=
  match knnSorted train testVec with
  | [] => none
  | d :: _ =>
    if sqrtGt d.1 threshold then some (-1)
    else some (majorityLabel (knnTop train testVec k) : ℤ)

/-! ## Feature bank loading (src/face_auth.py `_load_face_bank`) -/

/-- A persisted dataset: one entry per `face_dataset/<Name>.npy` file, in
directory-listing order, carrying the file stem and its sample matrix rows.
`capture_profile` only writes matrices with at least one row. -/
def FaceDataset : Type := List (String × List (List ℤ))

/-- The flat training matrix `train`: rows of every file, labelled with the
class id `cid` assigned in file order. -/
def loadTrain (dataset : FaceDataset) : List LabeledVec :=
  dataset.enum.flatMap fun p => p.2.2.map fun v => LabeledVec.mk v p.1

/-- The `names` table `{class_id: name}`: the file stem of each class id. -/
def loadNames (dataset : FaceDataset) : List String :=
  dataset.map Prod.fst

/-- `_load_face_bank()`: `(None, {})` when no `.npy` file exists (`if not
feats: return None, {}`), otherwise the flat train matrix and name table. -/
def loadFaceBank (dataset : FaceDataset) : Option (List LabeledVec × List String) :=
  if dataset.isEmpty then none
  else some (loadTrain dataset, loadNames dataset)

/-! ## Per-frame classification and voting (src/face_auth.py `recognize_quick`) -/

/-- The tail of the per-face body of `recognize_quick`:
`pred_id = _knn(...)`; skip on `-1`; `name = names.get(pred_id)`; skip when
the name is missing or empty (`if not name`). -/
def classifyName (train : List LabeledVec) (names : List String) (testVec : List ℤ)
    (k : Nat) (threshold : ℤ) : Option String :=
  match knn train testVec k threshold with
  | none => none
  | some predId =>
    if predId = -1 then none
    else
      match names.get? predId.toNat with
      | none => none
      | some n => if n = "" then none else some n

/-- One detected face box as consumed by the recognition loop: bounding-box
size, whether the cropped region is nonempty (`roi.size`), the Laplacian
sharpness score of the resized crop, and the flattened 100x100 sample. -/
structure FaceDet where
  w : Nat
  h : Nat
  roiSize : Nat
  sharpness : ℤ
  sample : List ℤ
deriving DecidableEq, Repr

/-- One camera frame: whether `cap.read()` succeeded, and the detected face
boxes of the frame. -/
structure Frame where
  ok : Bool
  faces : List FaceDet
deriving DecidableEq, Repr

/-- The tunable constants of config.py used by recognition, plus the keyword
arguments of `recognize_quick`. -/
structure RecogConfig where
  faceMinSize : Nat
  faceBlurThresh : ℤ
  faceMaxBlur : ℤ
  faceDistThresh : ℤ
  timeoutFrames : Nat
  needVotes : Nat
  k : Nat
deriving DecidableEq, Repr

/-- The default configuration of config.py: `FACE_MIN_SIZE = 80`,
`FACE_BLUR_THRESH = 100`, `FACE_MAX_BLUR = 600`, `FACE_DIST_THRESH = 2600`,
and `recognize_quick` defaults `timeout_frames=250, need_votes=5, k=5`. -/
def defaultRecogConfig : RecogConfig :=
  ⟨80, 100, 600, 2600, 250, 5, 5⟩

/-- The per-face body of the recognition loop: skip faces below
`FACE_MIN_SIZE`, skip empty crops, skip sharpness outside
`[FACE_BLUR_THRESH, FACE_MAX_BLUR]`, then classify; `some name` is a vote. -/
def faceVote (train : List LabeledVec) (names : List String) (cfg : RecogConfig)
    (f : FaceDet) : Option String :=
  if f.w < cfg.faceMinSize ∨ f.h < cfg.faceMinSize then none
  else if f.roiSize = 0 then none
  else if ¬ (cfg.faceBlurThresh ≤ f.sharpness ∧ f.sharpness ≤ cfg.faceMaxBlur) then none
  else classifyName train names f.sample cfg.k cfg.faceDistThresh

/-- `votes[name] = votes.get(name, 0) + 1` on the running tally. -/
def bump (votes : String → Nat) (name : String) : String → Nat :=
  fun n => if n = name then votes name + 1 else votes n

/-- The inner `for (x, y, w, h) in faces` loop of `recognize_quick`: fold the
faces of one frame into the tally, returning early with a winner as soon as
some tally reaches `need_votes`. -/
def voteFaces (train : List LabeledVec) (names : List String) (cfg : RecogConfig) :
    List FaceDet → (String → Nat) → (String → Nat) × Option String
  | [], votes => (votes, none)
  | f :: fs, votes =>
    match faceVote train names cfg f with
    | none => voteFaces train names cfg fs votes
    | some name =>
      let votes1 := bump votes name
      if cfg.needVotes ≤ votes1 name then (votes1, some name)
      else voteFaces train names cfg fs votes1

/-- The outer `while frames < timeout_frames` loop of `recognize_quick`,
applied to the list of frames it will consume: failed reads
(`if not ret or frame is None: continue`) are skipped, every frame advances
the loop, and the first tally to reach `need_votes` returns immediately. -/
def voteLoop (train : List LabeledVec) (names : List String) (cfg : RecogConfig) :
    List Frame → (String → Nat) → Option String
  | [], _ => none
  | fr :: rest, votes =>
    if fr.ok then
      match voteFaces train names cfg fr.faces votes with
      | (_, some w) => some w
      | (votes1, none) => voteLoop train names cfg rest votes1
    else voteLoop train names cfg rest votes

/-- `recognize_quick`: load the bank (`None` aborts the attempt before any
frame is processed), then run the bounded voting loop over at most
`timeout_frames` camera frames with a fresh tally. -/
def recognize_quick (dataset : FaceDataset) (cfg : RecogConfig)
    (frames : List Frame) : Option String :=
  match loadFaceBank dataset with
  | none => none
  | some (train, names) =>
    voteLoop train names cfg (frames.take cfg.timeoutFrames) (fun _ => 0)

/-! ### Specification-side view of the aggregator -/

/-- The votes one frame contributes when no early return interrupts it: no
votes for a failed read, otherwise one vote per accepted face. -/
def frameVotes (train : List LabeledVec) (names : List String) (cfg : RecogConfig)
    (fr : Frame) : List String :=
  if fr.ok then fr.faces.filterMap (faceVote train names cfg) else []

/-- The full vote sequence of one attempt: votes of the consumed frames (the
first `timeout_frames` of the stream), in order. -/
def voteStream (train : List LabeledVec) (names : List String) (cfg : RecogConfig)
    (frames : List Frame) : List String :=
  (frames.take cfg.timeoutFrames).flatMap (frameVotes train names cfg)

/-- Modelled from the spec (§4.4, first-to-threshold aggregation): scan the
vote sequence, incrementing the tally of each vote, and return with its label
the first vote that lifts its own tally to `need`; the pair carries the tally
for resumption. -/
def firstToThresholdAux (need : Nat) :
    List String → (String → Nat) → (String → Nat) × Option String
  | [], t => (t, none)
  | v :: vs, t =>
    let t1 := bump t v
    if need ≤ t1 v then (t1, some v) else firstToThresholdAux need vs t1

/-- Modelled from the spec (§4.4): the label of the first vote whose own
tally reaches `need`, or `none` when the sequence is exhausted. -/
def firstToThreshold (need : Nat) (vs : List String) : Option String :=
  (firstToThresholdAux need vs (fun _ => 0)).2

/-! ## Personas (src/personas.py) and profile store (src/profiles.py) -/

/-- The keys of the `PERSONAS` dict. -/
def PERSONAS : List String := ["Aldridge", "Professor", "Guest"]

/-- Python `str.lower()` restricted to ASCII, which is all the source applies
it to (`devname.lower()`, `who.lower()`). -/
def pyLowerChar (c : Char) : Char :=
  if 65 ≤ c.toNat ∧ c.toNat ≤ 90 then Char.ofNat (c.toNat + 32) else c

/-- Python `str.lower()` on the strings of this code base. -/
def pyLower (s : String) : String := ⟨s.data.map pyLowerChar⟩

/-- Association-list lookup, the embedding of Python `dict` read access. -/
def aget {α : Type} (k : String) : List (String × α) → Option α
  | [] => none
  | (k1, v) :: rest => if k1 = k then some v else aget k rest

/-- Association-list write, the embedding of Python `dict` item assignment:
replace the binding of `k` in place, or append a fresh one. -/
def aset {α : Type} (k : String) (v : α) : List (String × α) → List (String × α)
  | [] => [(k, v)]
  | (k1, v1) :: rest => if k1 = k then (k, v) :: rest else (k1, v1) :: aset k v rest

/-- The `tts` sub-dict of a profile record.  Defaults from config.py:
`TTS_ENABLED_DEFAULT = True`, `TTS_VOICE_INDEX_DEFAULT = None`,
`TTS_RATE_DEFAULT = None`. -/
structure TTSRec where
  enabled : Bool
  voiceIndex : Option ℤ
  rate : Option ℤ
deriving DecidableEq, Repr

/-- The config.py TTS defaults installed by `ensure_identity_struct`. -/
def defaultTTSRec : TTSRec := ⟨true, none, none⟩

/-- One identity record of profiles.json.  Each field is `Option` because a
loaded record may lack any of the keys until `ensure_identity_struct` fills
them (`setdefault`). -/
structure PersonaRec where
  places : Option (List (String × String))
  tts : Option TTSRec
  permissions : Option (List (String × Bool))
deriving DecidableEq, Repr

/-- A record fresh from `profiles.setdefault(identity, {})`. -/
def emptyPersonaRec : PersonaRec := ⟨none, none, none⟩

/-- The profiles.json dict: identity records plus the special
`"_last_identity"` key, which maps to a string instead of a record. -/
structure Profiles where
  recs : List (String × PersonaRec)
  lastIdentity : Option String
deriving DecidableEq, Repr

/-- The empty profile store (`load_profiles` on a missing file). -/
def emptyProfiles : Profiles := ⟨[], none⟩

/-- Python `key in profiles` on the profiles dict: an identity record key, or
the `"_last_identity"` key when it is set. -/
def inProfilesDict (p : Profiles) (k : String) : Prop :=
  (aget k p.recs).isSome = true ∨ (k = "_last_identity" ∧ p.lastIdentity.isSome = true)

instance (p : Profiles) (k : String) : Decidable (inProfilesDict p k) :=
  inferInstanceAs (Decidable (_ ∨ _))

/-- `ensure_identity_struct(profiles, identity)`: `setdefault` the record and
each of its three keys; the calendar permission defaults to
`identity == "Aldridge"`. -/
def ensure_identity_struct (profiles : Profiles) (identity : String) : Profiles :=
  let r0 := (aget identity profiles.recs).getD emptyPersonaRec
  let r1 := { r0 with places := some (r0.places.getD []) }
  let r2 := { r1 with tts := some (r1.tts.getD defaultTTSRec) }
  let r3 := { r2 with
    permissions := some (r2.permissions.getD [("calendar", decide (identity = "Aldridge"))]) }
  { profiles with recs := aset identity r3 profiles.recs }

/-- `has_calendar_permission(identity, profiles)`:
`profiles.get(identity, {}).get("permissions", {}).get("calendar", False)`. -/
def has_calendar_permission (identity : String) (profiles : Profiles) : Bool :=
  match aget identity profiles.recs with
  | none => false
  | some r =>
    match r.permissions with
    | none => false
    | some ps => (aget "calendar" ps).getD false

/-- `profiles["_last_identity"] = identity`. -/
def setLastIdentity (p : Profiles) (identity : String) : Profiles :=
  { p with lastIdentity := some identity }

/-- `profiles[target]["permissions"]["calendar"] = b`; the callers run
`ensure_identity_struct` first, so the record exists (a missing record would
be a `KeyError` in the source; it is left unchanged here). -/
def setCalendarFlag (p : Profiles) (target : String) (b : Bool) : Profiles :=
  match aget target p.recs with
  | none => p
  | some r =>
    let r1 := { r with permissions := some (aset "calendar" b (r.permissions.getD [])) }
    { p with recs := aset target r1 p.recs }

/-- `profiles[identity]["tts"]["enabled"] = b` (same caller contract). -/
def setTTSEnabled (p : Profiles) (identity : String) (b : Bool) : Profiles :=
  match aget identity p.recs with
  | none => p
  | some r =>
    let r1 := { r with tts := some { r.tts.getD defaultTTSRec with enabled := b } }
    { p with recs := aset identity r1 p.recs }

/-- `profiles[identity]["tts"]["voice_index"] = idx` (same caller contract). -/
def setTTSVoiceIndex (p : Profiles) (identity : String) (idx : ℤ) : Profiles :=
  match aget identity p.recs with
  | none => p
  | some r =>
    let r1 := { r with tts := some { r.tts.getD defaultTTSRec with voiceIndex := some idx } }
    { p with recs := aset identity r1 p.recs }

/-- `profiles[identity]["tts"]["rate"] = rate` (same caller contract). -/
def setTTSRate (p : Profiles) (identity : String) (rate : ℤ) : Profiles :=
  match aget identity p.recs with
  | none => p
  | some r =>
    let r1 := { r with tts := some { r.tts.getD defaultTTSRec with rate := some rate } }
    { p with recs := aset identity r1 p.recs }

/-- `profiles[identity]["places"][key] = value` (same caller contract). -/
def setPlaceEntry (p : Profiles) (identity : String) (key value : String) : Profiles :=
  match aget identity p.recs with
  | none => p
  | some r =>
    let r1 := { r with places := some (aset key value (r.places.getD [])) }
    { p with recs := aset identity r1 p.recs }

/-! ## Startup identity decision -/

/-- The non-strict fallback of `attempt_auto_identity` (repl.py): the last
identity when it is a persona, else `"Aldridge"`, always pre-authenticated. -/
def attemptFallback (profiles : Profiles) : String × Bool :=
  match profiles.lastIdentity with
  | some last => if last ∈ PERSONAS then (last, true) else ("Aldridge", true)
  | none => ("Aldridge", true)

/-- `attempt_auto_identity(profiles)` from repl.py, the startup decision
`run_repl` actually calls.  `recognized` is the value `recognize_quick`
returned (`None` without a confident match); `who and who in PERSONAS` is the
Python truthiness test, so the empty string also fails it. -/
def attempt_auto_identity (strictAuth hasCv2 : Bool) (recognized : Option String)
    (profiles : Profiles) : String × Bool :=
  let who : Option String := if hasCv2 then recognized else none
  if strictAuth then
    match who with
    | some w => if w ≠ "" ∧ w ∈ PERSONAS then (w, true) else ("LOCKED", false)
    | none => ("LOCKED", false)
  else
    match who with
    | some w => if w ≠ "" ∧ w ∈ PERSONAS then (w, true) else attemptFallback profiles
    | none => attemptFallback profiles

/-- The non-strict fallback of `choose_identity_from_faces_or_fallback`
(face_auth.py): the last identity when truthy and a profiles key, else
`("Guest", False)`. -/
def chooseFallback (profiles : Profiles) : String × Bool :=
  match profiles.lastIdentity with
  | some last =>
    if last ≠ "" ∧ inProfilesDict profiles last then (last, true) else ("Guest", false)
  | none => ("Guest", false)

/-- `choose_identity_from_faces_or_fallback(profiles, try_camera=...)` from
face_auth.py.  In strict mode it demands a profiles key whose lowercase form
is not `"guest"` and otherwise returns `("LOCKED", False)`. -/
def choose_identity_from_faces_or_fallback (strictAuth tryCamera autoRecogOnStart : Bool)
    (recognized : Option String) (profiles : Profiles) : String × Bool :=
  let who : Option String := if tryCamera && autoRecogOnStart then recognized else none
  if strictAuth then
    match who with
    | some w =>
      if w ≠ "" ∧ inProfilesDict profiles w ∧ pyLower w ≠ "guest" then (w, true)
      else ("LOCKED", false)
    | none => ("LOCKED", false)
  else
    match who with
    | some w =>
      if w ≠ "" ∧ inProfilesDict profiles w then (w, true) else chooseFallback profiles
    | none => chooseFallback profiles

/-! ## Session state machine (src/repl.py `run_repl` command loop) -/

/-- The session state the command loop threads: the current identity string
(`"LOCKED"`, `"guest"`, or a persona name) and the profile store. -/
structure ReplState where
  identity : String
  profiles : Profiles
deriving DecidableEq, Repr

/-- `locked_like = (identity == "LOCKED" or identity == "guest")`
(repl.py, the hard gate recomputed before the sensitive commands). -/
def lockedLike (identity : String) : Bool :=
  identity == "LOCKED" || identity == "guest"

/-- The sensitive capabilities gated by the command loop. -/
inductive Capability where
  | calendar
  | navigation
  | savedPlaces
deriving DecidableEq, Repr

/-- The permission check each sensitive command performs, in branch order:
`locked_like` denies outright; only then is the per-persona calendar flag
consulted (`/agenda`, the natural-language calendar path); `/nav`,
`/setplace` and `/places` check only `locked_like`. -/
def can_access (identity : String) (profiles : Profiles) : Capability → Bool
  | .calendar =>
    if lockedLike identity then false else has_calendar_permission identity profiles
  | .navigation => !lockedLike identity
  | .savedPlaces => !lockedLike identity

/-- The commands of the loop that can touch the session identity or the
profile store.  `recognize` carries the external recognition result;
`passive` stands for every remaining command (`/help`, `/clear`, `/model`,
`/voices`, `/voice`, `/agenda`, `/nav`, `/places`, `/mic`, `/setup_profile`,
chat), none of which assigns `identity` or writes `profiles`. -/
inductive Cmd where
  | recognize (result : Option String)
  | login (name : String)
  | lockCmd
  | switchPersona
  | grantCalendar (target : String)
  | revokeCalendar (target : String)
  | ttsSet (enabled : Bool)
  | voiceIdxSet (idx : ℤ)
  | rateSet (rate : ℤ)
  | setPlace (key value : String)
  | passive
deriving DecidableEq, Repr

/-- One iteration of the `run_repl` command dispatch, restricted to its
effect on `(identity, profiles)`:
* `/recognize`: a truthy result that is a `PERSONAS` key becomes the new
  identity (last identity saved, record ensured); anything else only prints.
* `/login <name>`: only a `PERSONAS` key whose lowercase form is not
  `"guest"` is accepted.
* `/lock`: identity becomes `"LOCKED"`.
* `/switch`: toggles Aldridge and Professor, lets `"LOCKED"` enter
  `"guest"`, and refuses everything else.
* `/grant_calendar`, `/revoke_calendar`: only while the identity is
  `"Aldridge"`, and only for a `PERSONAS` target.
* `/tts`, `/voiceidx`, `/rate`: persist TTS preferences for persona
  identities only.
* `/setplace`: denied when `locked_like`, else writes the place. -/
def stepRepl (s : ReplState) : Cmd → ReplState
  | .recognize result =>
    match result with
    | none => s
    | some who =>
      if who ≠ "" ∧ who ∈ PERSONAS then
        { identity := who,
          profiles := ensure_identity_struct (setLastIdentity s.profiles who) who }
      else s
  | .login name =>
    if name ∈ PERSONAS ∧ pyLower name ≠ "guest" then
      { identity := name,
        profiles := ensure_identity_struct (setLastIdentity s.profiles name) name }
    else s
  | .lockCmd => { s with identity := "LOCKED" }
  | .switchPersona =>
    if s.identity = "Aldridge" ∨ s.identity = "Professor" then
      let newId := if s.identity = "Aldridge" then "Professor" else "Aldridge"
      { identity := newId,
        profiles := setLastIdentity (ensure_identity_struct s.profiles newId) newId }
    else if s.identity = "LOCKED" then { s with identity := "guest" }
    else s
  | .grantCalendar target =>
    if s.identity ≠ "Aldridge" then s
    else if target ∉ PERSONAS then s
    else
      { s with profiles :=
          setCalendarFlag (ensure_identity_struct s.profiles target) target true }
  | .revokeCalendar target =>
    if s.identity ≠ "Aldridge" then s
    else if target ∉ PERSONAS then s
    else
      { s with profiles :=
          setCalendarFlag (ensure_identity_struct s.profiles target) target false }
  | .ttsSet b =>
    if s.identity ∈ PERSONAS then
      { s with profiles :=
          setTTSEnabled (ensure_identity_struct s.profiles s.identity) s.identity b }
    else s
  | .voiceIdxSet idx =>
    if s.identity ∈ PERSONAS then
      { s with profiles :=
          setTTSVoiceIndex (ensure_identity_struct s.profiles s.identity) s.identity idx }
    else s
  | .rateSet rate =>
    if s.identity ∈ PERSONAS then
      { s with profiles :=
          setTTSRate (ensure_identity_struct s.profiles s.identity) s.identity rate }
    else s
  | .setPlace key value =>
    if lockedLike s.identity then s
    else
      { s with profiles :=
          setPlaceEntry (ensure_identity_struct s.profiles s.identity) s.identity key value }
  | .passive => s

/-- A whole command sequence applied to a starting state. -/
def runCmds (s : ReplState) (cmds : List Cmd) : ReplState :=
  cmds.foldl stepRepl s

/-! ## Concrete fixtures used by the theorems below -/

/-- The bank of spec scenarios 1 and 2: one enrolled vector `v0 = [0]` for
class id 0 (`"Aldridge"`); a 1-dimensional sample `[50]` is at Euclidean
distance 50 from it, `[5000]` at distance 5000. -/
def bankAldridge : List LabeledVec := [⟨[0], 0⟩]

/-- The dataset whose loaded bank is `bankAldridge` with name table
`["Aldridge"]`. -/
def dsAldridge : FaceDataset := [("Aldridge", [[0]])]

/-- A face box that passes every quality filter of the default
configuration and classifies as class 0 against `bankAldridge`. -/
def goodFace : FaceDet := ⟨100, 100, 1, 300, [0]⟩

/-- A frame whose read succeeded and that contains one good face. -/
def okFrame : Frame := ⟨true, [goodFace]⟩

/-- A frame whose `cap.read()` failed (`ret` false): it is consumed from the
frame budget but contributes nothing. -/
def deadFrame : Frame := ⟨false, []⟩

/-- A single frame containing two detected good faces. -/
def twoFaceFrame : Frame := ⟨true, [goodFace, goodFace]⟩

/-- The default configuration with `need_votes` lowered to 2. -/
def cfgNeedTwo : RecogConfig := { defaultRecogConfig with needVotes := 2 }

/-- A two-row bank realizing a majority tie among the k = 2 nearest: label 1
at squared distance 100 from the origin sample, label 0 at squared distance
400. -/
def cexTrain : List LabeledVec := [⟨[20], 0⟩, ⟨[10], 1⟩]

/-- A profile store containing a record for `"Guest"`, as after an operator
ran enrollment and profile creation for that name. -/
def guestProfiles : Profiles := ⟨[("Guest", emptyPersonaRec)], none⟩

/-- An adversarial permission store granting the calendar flag to every
identity, including the reserved `"LOCKED"` and `"guest"` states. -/
def fullGrantStore : Profiles :=
  ⟨[("LOCKED", ⟨none, none, some [("calendar", true)]⟩),
    ("guest", ⟨none, none, some [("calendar", true)]⟩),
    ("Aldridge", ⟨none, none, some [("calendar", true)]⟩)], none⟩

/-- The store after `ensure_identity_struct` created the Professor record
(calendar permission present and `false`). -/
def profProfessor : Profiles := ensure_identity_struct emptyProfiles "Professor"

/-- The identity `q` has an explicit `permissions` dict in the store, as
every record touched by `ensure_identity_struct` does. -/
def permsPresent (q : String) (p : Profiles) : Prop :=
  ((aget q p.recs).bind PersonaRec.permissions).isSome = true

instance (q : String) (p : Profiles) : Decidable (permsPresent q p) :=
  inferInstanceAs (Decidable (_ = _))

/-! ## Association-list and profile-store lemmas -/

theorem aget_aset_self {α : Type} (k : String) (v : α) (l : List (String × α)) :
    aget k (aset k v l) = some v := by
  induction l with
  | nil => simp [aget, aset]
  | cons hd t ih =>
    obtain ⟨k1, v1⟩ := hd
    by_cases hk : k1 = k
    · subst hk; simp [aset, aget]
    · simp [aset, aget, hk, ih]

theorem aget_aset_ne {α : Type} (k k1 : String) (v : α) (l : List (String × α))
    (h : k1 ≠ k) : aget k (aset k1 v l) = aget k l := by
  induction l with
  | nil => simp [aget, aset, h]
  | cons hd t ih =>
    obtain ⟨k2, v2⟩ := hd
    by_cases hk : k2 = k1
    · subst hk; simp [aset, aget, h]
    · simp [aset, aget, hk, ih]

theorem hasCal_setLast (p : Profiles) (id q : String) :
    has_calendar_permission q (setLastIdentity p id) = has_calendar_permission q p := rfl

theorem hasCal_ensure (p : Profiles) (id q : String)
    (hq : ((aget q p.recs).bind PersonaRec.permissions).isSome = true) :
    has_calendar_permission q (ensure_identity_struct p id) = has_calendar_permission q p := by
  by_cases hid : id = q
  · subst hid
    cases hr : aget id p.recs with
    | none => rw [hr] at hq; simp [Option.bind] at hq
    | some r =>
      cases hp : r.permissions with
      | none => rw [hr] at hq; simp [Option.bind, hp] at hq
      | some ps =>
        simp [ensure_identity_struct, has_calendar_permission, hr, hp, aget_aset_self]
  · simp [ensure_identity_struct, has_calendar_permission, aget_aset_ne q id _ _ hid]

theorem ensure_aget_isSome (p : Profiles) (id : String) :
    (aget id (ensure_identity_struct p id).recs).isSome = true := by
  simp [ensure_identity_struct, aget_aset_self]

theorem hasCal_setCalendarFlag_self (p : Profiles) (t : String) (b : Bool)
    (h : (aget t p.recs).isSome = true) :
    has_calendar_permission t (setCalendarFlag p t b) = b := by
  cases hr : aget t p.recs with
  | none => rw [hr] at h; simp at h
  | some r =>
    simp [setCalendarFlag, hr, has_calendar_permission, aget_aset_self]

theorem hasCal_setCalendarFlag_ne (p : Profiles) (t q : String) (b : Bool) (h : q ≠ t) :
    has_calendar_permission q (setCalendarFlag p t b) = has_calendar_permission q p := by
  cases hr : aget t p.recs with
  | none => simp [setCalendarFlag, hr]
  | some r =>
    simp [setCalendarFlag, hr, has_calendar_permission, aget_aset_ne q t _ _ (Ne.symm h)]

theorem hasCal_setTTSEnabled (p : Profiles) (id q : String) (b : Bool) :
    has_calendar_permission q (setTTSEnabled p id b) = has_calendar_permission q p := by
  cases hr : aget id p.recs with
  | none => simp [setTTSEnabled, hr]
  | some r =>
    by_cases hq : id = q
    · subst hq; simp [setTTSEnabled, hr, has_calendar_permission, aget_aset_self]
    · simp [setTTSEnabled, hr, has_calendar_permission, aget_aset_ne q id _ _ hq]

theorem hasCal_setTTSVoiceIndex (p : Profiles) (id q : String) (idx : ℤ) :
    has_calendar_permission q (setTTSVoiceIndex p id idx) = has_calendar_permission q p := by
  cases hr : aget id p.recs with
  | none => simp [setTTSVoiceIndex, hr]
  | some r =>
    by_cases hq : id = q
    · subst hq; simp [setTTSVoiceIndex, hr, has_calendar_permission, aget_aset_self]
    · simp [setTTSVoiceIndex, hr, has_calendar_permission, aget_aset_ne q id _ _ hq]

theorem hasCal_setTTSRate (p : Profiles) (id q : String) (rate : ℤ) :
    has_calendar_permission q (setTTSRate p id rate) = has_calendar_permission q p := by
  cases hr : aget id p.recs with
  | none => simp [setTTSRate, hr]
  | some r =>
    by_cases hq : id = q
    · subst hq; simp [setTTSRate, hr, has_calendar_permission, aget_aset_self]
    · simp [setTTSRate, hr, has_calendar_permission, aget_aset_ne q id _ _ hq]

theorem hasCal_setPlaceEntry (p : Profiles) (id q key value : String) :
    has_calendar_permission q (setPlaceEntry p id key value) = has_calendar_permission q p := by
  cases hr : aget id p.recs with
  | none => simp [setPlaceEntry, hr]
  | some r =>
    by_cases hq : id = q
    · subst hq; simp [setPlaceEntry, hr, has_calendar_permission, aget_aset_self]
    · simp [setPlaceEntry, hr, has_calendar_permission, aget_aset_ne q id _ _ hq]

/-! ## Majority-vote lemmas (`np.unique` + `np.argmax`) -/

theorem pickFirstMax_mem : ∀ (ps : List (Nat × Nat)), ps ≠ [] → pickFirstMax ps ∈ ps
  | [], h => absurd rfl h
  | [p], _ => by simp [pickFirstMax]
  | p :: q :: rest, _ => by
    have ih := pickFirstMax_mem (q :: rest) (by simp)
    simp only [pickFirstMax]
    by_cases hc : (pickFirstMax (q :: rest)).2 ≤ p.2
    · simp [hc]
    · simp only [if_neg hc]
      exact List.mem_cons_of_mem _ ih

theorem pickFirstMax_le : ∀ (ps : List (Nat × Nat)), ∀ q ∈ ps, q.2 ≤ (pickFirstMax ps).2
  | [], q, hq => absurd hq (by simp)
  | [p], q, hq => by
    rcases List.mem_singleton.mp hq with rfl
    exact le_refl _
  | p :: p2 :: rest, q, hq => by
    have ih := pickFirstMax_le (p2 :: rest)
    simp only [pickFirstMax]
    by_cases hc : (pickFirstMax (p2 :: rest)).2 ≤ p.2
    · simp only [if_pos hc]
      rcases List.mem_cons.mp hq with rfl | hmem
      · exact le_refl _
      · exact le_trans (ih q hmem) hc
    · simp only [if_neg hc]
      rcases List.mem_cons.mp hq with rfl | hmem
      · exact le_of_lt (lt_of_not_le hc)
      · exact ih q hmem

theorem pickFirstMax_first : ∀ (ps : List (Nat × Nat)),
    List.Sorted (fun a b : Nat × Nat => a.1 ≤ b.1) ps →
    ∀ q ∈ ps, (pickFirstMax ps).2 ≤ q.2 → (pickFirstMax ps).1 ≤ q.1
  | [], _, q, hq, _ => absurd hq (by simp)
  | [p], _, q, hq, _ => by
    rcases List.mem_singleton.mp hq with rfl
    exact le_refl _
  | p :: p2 :: rest, hs, q, hq, hle => by
    have hrel := List.rel_of_sorted_cons hs
    have htail : List.Sorted (fun a b : Nat × Nat => a.1 ≤ b.1) (p2 :: rest) :=
      List.sorted_cons.mp hs |>.2
    have ih := pickFirstMax_first (p2 :: rest) htail
    simp only [pickFirstMax] at hle ⊢
    by_cases hc : (pickFirstMax (p2 :: rest)).2 ≤ p.2
    · simp only [if_pos hc] at hle ⊢
      rcases List.mem_cons.mp hq with rfl | hmem
      · exact le_refl _
      · exact hrel q hmem
    · simp only [if_neg hc] at hle ⊢
      rcases List.mem_cons.mp hq with rfl | hmem
      · exact absurd hle hc
      · exact ih q hmem hle

theorem npUnique_mem (top : List Nat) (x : Nat) : x ∈ npUnique top ↔ x ∈ top := by
  rw [npUnique, List.mem_dedup]
  exact (List.perm_insertionSort _ top).mem_iff

theorem npUnique_sorted (top : List Nat) : (npUnique top).Sorted (· ≤ ·) :=
  (List.sorted_insertionSort _ top).sublist (List.dedup_sublist _)

theorem npUnique_ne_nil (top : List Nat) (h : top ≠ []) : npUnique top ≠ [] := by
  cases top with
  | nil => exact absurd rfl h
  | cons a t => exact List.ne_nil_of_mem ((npUnique_mem _ a).mpr (List.mem_cons_self a t))

theorem majorityLabel_spec (top : List Nat) (h : top ≠ []) :
    majorityLabel top ∈ top ∧
    (∀ l ∈ top, top.count l ≤ top.count (majorityLabel top)) ∧
    (∀ l ∈ top, top.count l = top.count (majorityLabel top) → majorityLabel top ≤ l) := by
  set pairs : List (Nat × Nat) := (npUnique top).map fun v => (v, top.count v) with hpairs
  have hpne : pairs ≠ [] := by
    rw [hpairs]
    simpa using npUnique_ne_nil top h
  have hmem := pickFirstMax_mem pairs hpne
  obtain ⟨v0, hv0, heq⟩ := List.mem_map.mp hmem
  have hfst : (pickFirstMax pairs).1 = v0 := by rw [← heq]
  have hsnd : (pickFirstMax pairs).2 = top.count v0 := by rw [← heq]
  have hml : majorityLabel top = (pickFirstMax pairs).1 := rfl
  have hcount : top.count (majorityLabel top) = (pickFirstMax pairs).2 := by
    rw [hml, hfst, hsnd]
  refine ⟨?_, ?_, ?_⟩
  · rw [hml, hfst]
    exact (npUnique_mem top v0).mp hv0
  · intro l hl
    have hlp : ((l, top.count l) : Nat × Nat) ∈ pairs :=
      List.mem_map.mpr ⟨l, (npUnique_mem top l).mpr hl, rfl⟩
    have := pickFirstMax_le pairs (l, top.count l) hlp
    rw [hcount]
    exact this
  · intro l hl hcnt
    have hlp : ((l, top.count l) : Nat × Nat) ∈ pairs :=
      List.mem_map.mpr ⟨l, (npUnique_mem top l).mpr hl, rfl⟩
    have hsorted : List.Sorted (fun a b : Nat × Nat => a.1 ≤ b.1) pairs := by
      rw [hpairs]
      exact List.Pairwise.map _ (fun a b hab => hab) (npUnique_sorted top)
    have hle : (pickFirstMax pairs).2 ≤ ((l, top.count l) : Nat × Nat).2 := by
      rw [← hcount]
      exact le_of_eq hcnt.symm
    have := pickFirstMax_first pairs hsorted (l, top.count l) hlp hle
    rw [hml]
    exact this

/-! ## Sorted-distance lemmas for `_knn` -/

theorem knnSorted_sorted (train : List LabeledVec) (testVec : List ℤ) :
    List.Sorted distLe (knnSorted train testVec) :=
  List.sorted_insertionSort distLe (knnDists train testVec)

theorem knnSorted_perm (train : List LabeledVec) (testVec : List ℤ) :
    List.Perm (knnSorted train testVec) (knnDists train testVec) :=
  List.perm_insertionSort distLe (knnDists train testVec)

theorem knnSorted_head_min (train : List LabeledVec) (testVec : List ℤ)
    (d : ℤ × Nat) (rest : List (ℤ × Nat)) (h : knnSorted train testVec = d :: rest) :
    ∀ x ∈ knnDists train testVec, d.1 ≤ x.1 := by
  intro x hx
  have hx2 : x ∈ knnSorted train testVec := (knnSorted_perm train testVec).mem_iff.mpr hx
  rw [h] at hx2
  rcases List.mem_cons.mp hx2 with rfl | hmem
  · exact le_refl _
  · have hs := knnSorted_sorted train testVec
    rw [h] at hs
    exact List.rel_of_sorted_cons hs x hmem

theorem knn_eq_of_sorted_cons (train : List LabeledVec) (testVec : List ℤ) (k : Nat)
    (t : ℤ) (d : ℤ × Nat) (rest : List (ℤ × Nat))
    (hs : knnSorted train testVec = d :: rest) :
    knn train testVec k t =
      if sqrtGt d.1 t then some (-1)
      else some (majorityLabel (knnTop train testVec k) : ℤ) := by
  unfold knn
  rw [hs]

theorem knnSorted_ne_nil (train : List LabeledVec) (testVec : List ℤ)
    (hne : train ≠ []) : knnSorted train testVec ≠ [] := by
  intro hs
  have hperm := knnSorted_perm train testVec
  rw [hs] at hperm
  have hnil : knnDists train testVec = [] := hperm.symm.eq_nil
  cases train with
  | nil => exact absurd rfl hne
  | cons r rs => simp [knnDists] at hnil

theorem knn_reject_of_far (train : List LabeledVec) (testVec : List ℤ) (k : Nat) (t : ℤ)
    (hne : train ≠ [])
    (hfar : ∀ r ∈ train, sqrtGt (euclidSqDist testVec r.vec) t) :
    knn train testVec k t = some (-1) := by
  cases hs : knnSorted train testVec with
  | nil => exact absurd hs (knnSorted_ne_nil train testVec hne)
  | cons d rest =>
    have hd : d ∈ knnDists train testVec := by
      have : d ∈ knnSorted train testVec := by rw [hs]; exact List.mem_cons_self d rest
      exact (knnSorted_perm train testVec).mem_iff.mp this
    obtain ⟨r, hr, heq⟩ := List.mem_map.mp hd
    subst heq
    rw [knn_eq_of_sorted_cons train testVec k t _ rest hs, if_pos (hfar r hr)]

theorem knn_some_of_near (train : List LabeledVec) (testVec : List ℤ) (k : Nat) (t : ℤ)
    (hnear : ∃ r ∈ train, ¬ sqrtGt (euclidSqDist testVec r.vec) t) :
    ∃ l : Nat, knn train testVec k t = some (l : ℤ) := by
  obtain ⟨r, hr, hnr⟩ := hnear
  have hne : train ≠ [] := List.ne_nil_of_mem hr
  cases hs : knnSorted train testVec with
  | nil => exact absurd hs (knnSorted_ne_nil train testVec hne)
  | cons d rest =>
    have hdmin := knnSorted_head_min train testVec d rest hs
    have hmem : (euclidSqDist testVec r.vec, r.label) ∈ knnDists train testVec :=
      List.mem_map.mpr ⟨r, hr, rfl⟩
    have hdle : d.1 ≤ euclidSqDist testVec r.vec := hdmin _ hmem
    have hnd : ¬ sqrtGt d.1 t := by
      intro hcon
      apply hnr
      rcases hcon with hneg | hlt
      · exact Or.inl hneg
      · exact Or.inr (lt_of_lt_of_le hlt hdle)
    refine ⟨majorityLabel (knnTop train testVec k), ?_⟩
    rw [knn_eq_of_sorted_cons train testVec k t d rest hs, if_neg hnd]

theorem knn_threshold_monotone (train : List LabeledVec) (testVec : List ℤ) (k : Nat)
    (T T1 : ℤ) (hlt : T1 < T) (hrej : knn train testVec k T = some (-1)) :
    knn train testVec k T1 = some (-1) := by
  cases hs : knnSorted train testVec with
  | nil => unfold knn at hrej; rw [hs] at hrej; exact absurd hrej (by simp)
  | cons d rest =>
    rw [knn_eq_of_sorted_cons train testVec k T d rest hs] at hrej
    rw [knn_eq_of_sorted_cons train testVec k T1 d rest hs]
    have hgt : sqrtGt d.1 T := by
      by_contra hc
      rw [if_neg hc] at hrej
      have := Option.some.inj hrej
      have hnn : (0 : ℤ) ≤ (majorityLabel (knnTop train testVec k) : ℤ) := Int.natCast_nonneg _
      omega
    have hgt1 : sqrtGt d.1 T1 := by
      rcases hgt with hneg | hd
      · exact Or.inl (lt_trans hlt hneg)
      · by_cases h1 : T1 < 0
        · exact Or.inl h1
        · push_neg at h1
          right
          nlinarith
    rw [if_pos hgt1]

theorem knn_result_majority (train : List LabeledVec) (testVec : List ℤ) (k : Nat)
    (t : ℤ) (l : ℤ) (hl : knn train testVec k t = some l) (hne : l ≠ -1) :
    l = (majorityLabel (knnTop train testVec k) : ℤ) := by
  cases hs : knnSorted train testVec with
  | nil => unfold knn at hl; rw [hs] at hl; exact absurd hl (by simp)
  | cons d rest =>
    rw [knn_eq_of_sorted_cons train testVec k t d rest hs] at hl
    by_cases hc : sqrtGt d.1 t
    · rw [if_pos hc] at hl
      exact absurd (Option.some.inj hl).symm hne
    · rw [if_neg hc] at hl
      exact (Option.some.inj hl).symm

/-! ## Aggregator equivalence lemmas -/

theorem voteFaces_eq_aux (train : List LabeledVec) (names : List String) (cfg : RecogConfig) :
    ∀ (faces : List FaceDet) (votes : String → Nat),
      voteFaces train names cfg faces votes =
        firstToThresholdAux cfg.needVotes (faces.filterMap (faceVote train names cfg)) votes
  | [], votes => rfl
  | f :: fs, votes => by
    cases hv : faceVote train names cfg f with
    | none =>
      simp only [voteFaces, hv, List.filterMap_cons]
      exact voteFaces_eq_aux train names cfg fs votes
    | some name =>
      simp only [voteFaces, hv, List.filterMap_cons, firstToThresholdAux]
      by_cases hc : cfg.needVotes ≤ bump votes name name
      · simp only [if_pos hc]
      · simp only [if_neg hc]
        exact voteFaces_eq_aux train names cfg fs (bump votes name)

theorem ftAux_append (need : Nat) :
    ∀ (xs ys : List String) (t : String → Nat),
      firstToThresholdAux need (xs ++ ys) t =
        match firstToThresholdAux need xs t with
        | (t1, some w) => (t1, some w)
        | (t1, none) => firstToThresholdAux need ys t1
  | [], ys, t => rfl
  | v :: vs, ys, t => by
    simp only [List.cons_append, firstToThresholdAux]
    by_cases hc : need ≤ bump t v v
    · simp only [if_pos hc]
    · simp only [if_neg hc]
      exact ftAux_append need vs ys (bump t v)

theorem voteLoop_eq (train : List LabeledVec) (names : List String) (cfg : RecogConfig) :
    ∀ (frames : List Frame) (votes : String → Nat),
      voteLoop train names cfg frames votes =
        (firstToThresholdAux cfg.needVotes
          (frames.flatMap (frameVotes train names cfg)) votes).2
  | [], votes => rfl
  | fr :: rest, votes => by
    rw [List.flatMap_cons]
    by_cases hok : fr.ok
    · have hfv : frameVotes train names cfg fr
          = fr.faces.filterMap (faceVote train names cfg) := by
        simp [frameVotes, hok]
      simp only [voteLoop, hok, if_true]
      rw [hfv, ftAux_append, ← voteFaces_eq_aux]
      cases hvf : voteFaces train names cfg fr.faces votes with
      | mk t1 res =>
        cases res with
        | some w => rfl
        | none => exact voteLoop_eq train names cfg rest t1
    · have hfv : frameVotes train names cfg fr = [] := by simp [frameVotes, hok]
      simp only [voteLoop, hok, if_false, Bool.false_eq_true]
      rw [hfv, List.nil_append]
      exact voteLoop_eq train names cfg rest votes

theorem flatMap_nil_of_forall {α β : Type} (l : List α) (f : α → List β)
    (h : ∀ x ∈ l, f x = []) : l.flatMap f = [] := by
  induction l with
  | nil => rfl
  | cons a t ih =>
    rw [List.flatMap_cons, h a (List.mem_cons_self a t), List.nil_append]
    exact ih fun x hx => h x (List.mem_cons_of_mem a hx)

/-! ## Claim theorems -/

/-- C1.  For every command sequence and every persisted permission-store
content, whenever the current session identity is `"LOCKED"` or `"guest"`,
the permission check performed before any sensitive operation (calendar
access, saved-place navigation, place saving and listing) returns `false`;
the conclusion holds for an arbitrary permission store `store`, so the
persisted per-persona flag is never consulted and can never override the
hard gate. -/
theorem locked_guest_hard_gate (init : ReplState) (cmds : List Cmd)
    (store : Profiles) (cap : Capability)
    (hlock : lockedLike (runCmds init cmds).identity = true) :
    can_access (runCmds init cmds).identity store cap = false := by
  cases cap <;> simp [can_access, hlock]

/-- Witness for C1: locking from Aldridge, and switching to guest from
LOCKED, both land in states the gate denies even against a store granting
the calendar flag to `"LOCKED"`, `"guest"` and `"Aldridge"`. -/
theorem locked_guest_hard_gate_witness :
    can_access (runCmds ⟨"Aldridge", emptyProfiles⟩ [Cmd.lockCmd]).identity
        fullGrantStore Capability.calendar = false ∧
    can_access (runCmds ⟨"LOCKED", emptyProfiles⟩ [Cmd.switchPersona]).identity
        fullGrantStore Capability.savedPlaces = false :=
  ⟨locked_guest_hard_gate _ _ _ _ (by decide),
   locked_guest_hard_gate _ _ _ _ (by decide)⟩

/-- C2 (code bug evidence).  The dev-bypass `/login` does reject `"Guest"`
and `"guest"` as targets, but the `/recognize` transition accepts the label
`"Guest"` because `"Guest"` is a `PERSONAS` key: from `LOCKED`, a
recognition result of `"Guest"` makes the session identity `"Guest"`, which
the hard gate does not treat as locked (`locked_like` compares against the
lowercase `"guest"` only).  So `Authenticated("Guest")` is constructible,
contrary to the claim and to spec scenario 5. -/
theorem guest_principal_constructible :
    (∀ s : ReplState, stepRepl s (Cmd.login "Guest") = s) ∧
    (∀ s : ReplState, stepRepl s (Cmd.login "guest") = s) ∧
    (stepRepl ⟨"LOCKED", emptyProfiles⟩ (Cmd.recognize (some "Guest"))).identity = "Guest" ∧
    lockedLike "Guest" = false ∧ "Guest" ∈ PERSONAS := by
  refine ⟨?_, ?_, by decide, by decide, by decide⟩
  · intro s
    simp only [stepRepl]
    rw [if_neg (by decide)]
  · intro s
    simp only [stepRepl]
    rw [if_neg (by decide)]

/-- C3 (code bug evidence).  In strict mode, on the recognition result
`"Guest"` (an enrolled face labelled Guest), the startup decision
`attempt_auto_identity` of repl.py - the function `run_repl` calls - returns
`("Guest", True)`, because it only tests membership in `PERSONAS`, which
contains `"Guest"`.  The sibling startup chooser
`choose_identity_from_faces_or_fallback` of face_auth.py, which carries the
explicit `who.lower() != "guest"` guard, returns `("LOCKED", False)` on the
same input: the two sourced implementations disagree, and only the unused
one satisfies the claim. -/
theorem strict_startup_guest_divergence :
    attempt_auto_identity true true (some "Guest") guestProfiles = ("Guest", true) ∧
    choose_identity_from_faces_or_fallback true true true (some "Guest") guestProfiles
      = ("LOCKED", false) := by
  constructor <;> decide

/-- C4.  The recognition attempt is exactly the first-to-threshold
aggregation of its vote stream: whenever the bank loads, `recognize_quick`
equals `firstToThreshold` (the aggregator written from the words of spec
§4.4) applied to the votes of the consumed frames.  In particular the first
label whose tally reaches `need_votes` is returned at that exact vote
regardless of later frames, and exhausting `max_frames` without any tally
reaching the threshold yields `none`. -/
theorem aggregator_first_to_threshold (dataset : FaceDataset)
    (train : List LabeledVec) (names : List String) (cfg : RecogConfig)
    (frames : List Frame)
    (hload : loadFaceBank dataset = some (train, names)) :
    recognize_quick dataset cfg frames =
      firstToThreshold cfg.needVotes (voteStream train names cfg frames) := by
  unfold recognize_quick
  rw [hload]
  show voteLoop train names cfg (List.take cfg.timeoutFrames frames) (fun _ => 0)
      = firstToThreshold cfg.needVotes (voteStream train names cfg frames)
  rw [voteLoop_eq]
  rfl

/-- Witness for C4, spec scenario 3: ten consecutive Aldridge frames with
`need_votes = 5` return `"Aldridge"` (the equivalence instantiated at the
concrete stream, then evaluated). -/
theorem aggregator_first_to_threshold_witness :
    recognize_quick dsAldridge defaultRecogConfig (List.replicate 10 okFrame)
      = some "Aldridge" :=
  (aggregator_first_to_threshold dsAldridge bankAldridge ["Aldridge"]
      defaultRecogConfig (List.replicate 10 okFrame) (by decide)).trans (by decide)

/-- C5.  Rejection tests the absolute best match: if every bank vector
(hence the nearest one) is farther than the threshold, `_knn` returns the
rejection result whatever the other neighbours are; if some vector is
within the threshold, a class label is returned.  The two spec scenarios:
the one-vector Aldridge bank at distance 50 with threshold 2600 and k = 1
classifies as `"Aldridge"`, and at distance 5000 it is rejected. -/
theorem classifier_best_match_rejection :
    (∀ (train : List LabeledVec) (testVec : List ℤ) (k : Nat) (t : ℤ),
        train ≠ [] →
        (∀ r ∈ train, sqrtGt (euclidSqDist testVec r.vec) t) →
        knn train testVec k t = some (-1)) ∧
    (∀ (train : List LabeledVec) (testVec : List ℤ) (k : Nat) (t : ℤ),
        (∃ r ∈ train, ¬ sqrtGt (euclidSqDist testVec r.vec) t) →
        ∃ l : Nat, knn train testVec k t = some (l : ℤ)) ∧
    classifyName bankAldridge ["Aldridge"] [50] 1 2600 = some "Aldridge" ∧
    classifyName bankAldridge ["Aldridge"] [5000] 1 2600 = none :=
  ⟨knn_reject_of_far, knn_some_of_near, by decide, by decide⟩

/-- Witness for C5: the general rejection and acceptance parts instantiated
on the scenario bank. -/
theorem classifier_best_match_rejection_witness :
    knn bankAldridge [5000] 1 2600 = some (-1) ∧
    (∃ l : Nat, knn bankAldridge [50] 1 2600 = some (l : ℤ)) :=
  ⟨classifier_best_match_rejection.1 bankAldridge [5000] 1 2600 (by decide) (by decide),
   classifier_best_match_rejection.2.1 bankAldridge [50] 1 2600
     ⟨⟨[0], 0⟩, by decide, by decide⟩⟩

/-- C6.  A bank with zero enrolled vectors never reaches a distance
computation: `_load_face_bank` returns the failure value on an empty
dataset, `recognize_quick` then aborts with `none` before consuming any
frame, and `_knn` itself on an empty bank fails immediately (the source
raises `IndexError` at `dists[0]` with zero distances computed, modelled as
`none`, distinct from the rejection value `some (-1)`). -/
theorem empty_bank_fails_fast :
    loadFaceBank ([] : FaceDataset) = none ∧
    (∀ (cfg : RecogConfig) (frames : List Frame), recognize_quick [] cfg frames = none) ∧
    (∀ (testVec : List ℤ) (k : Nat) (t : ℤ), knn [] testVec k t = none) :=
  ⟨rfl, fun _ _ => rfl, fun _ _ _ => rfl⟩

/-- C7 counterexample.  In `cexTrain` the k = 2 nearest neighbours of the
origin sample are label 1 (squared distance 100) and label 0 (squared
distance 400): the two labels are tied one vote each and label 1 is the
strictly nearer one (also the smaller summed distance), yet `_knn` returns
label 0 - `np.unique` sorts the candidate labels ascending and `np.argmax`
takes the first maximal count, so ties go to the smallest class id, not to
the nearest distance as the claim states. -/
theorem knn_tie_break_counterexample :
    knn cexTrain [0] 2 2600 = some 0 ∧
    knnTop cexTrain [0] 2 = [1, 0] ∧
    (knnTop cexTrain [0] 2).count 1 = (knnTop cexTrain [0] 2).count 0 ∧
    euclidSqDist [0] [10] < euclidSqDist [0] [20] ∧
    knn cexTrain [0] 2 2600 ≠ some 1 :=
  ⟨by decide, by decide, by decide, by decide, by decide⟩

/-- C7 as amended.  For every non-rejected sample, `_knn` returns the most
frequent label among the k nearest neighbours, and ties among equally
frequent labels are broken deterministically by the smallest class id
(`np.unique` ascending order plus first-maximum `np.argmax`), not by
distance. -/
theorem knn_majority_with_min_id_tie_break :
    (∀ (train : List LabeledVec) (testVec : List ℤ) (k : Nat) (t : ℤ) (l : ℤ),
        knn train testVec k t = some l → l ≠ -1 →
        l = (majorityLabel (knnTop train testVec k) : ℤ)) ∧
    (∀ top : List Nat, top ≠ [] →
        majorityLabel top ∈ top ∧
        (∀ l ∈ top, top.count l ≤ top.count (majorityLabel top)) ∧
        (∀ l ∈ top, top.count l = top.count (majorityLabel top) → majorityLabel top ≤ l)) :=
  ⟨knn_result_majority, majorityLabel_spec⟩

/-- Witness for amended C7: on the tie bank the non-rejected result is the
majority pick, and the majority properties hold on the concrete top list
`[1, 0]`. -/
theorem knn_majority_with_min_id_tie_break_witness :
    ((0 : ℤ) = (majorityLabel (knnTop cexTrain [0] 2) : ℤ)) ∧
    majorityLabel [1, 0] ∈ [1, 0] :=
  ⟨knn_majority_with_min_id_tie_break.1 cexTrain [0] 2 2600 0 (by decide) (by decide),
   (knn_majority_with_min_id_tie_break.2 [1, 0] (by decide)).1⟩

/-- C8 counterexample.  One frame containing two quality-passing matching
faces contributes two votes to the tally - the recognition loop iterates
over every detected box of the frame, not only the largest - so with
`need_votes = 2` a single frame already returns a winner, refuting
"each consumed frame contributes at most one vote". -/
theorem multi_face_frame_counterexample :
    (frameVotes bankAldridge ["Aldridge"] cfgNeedTwo twoFaceFrame).length = 2 ∧
    recognize_quick dsAldridge cfgNeedTwo [twoFaceFrame] = some "Aldridge" := by
  constructor <;> decide

/-- C8 as amended.  Each consumed frame contributes at most one vote per
detected face (so possibly several votes per frame), and every consumed
frame counts exactly once against the `max_frames` budget: only the first
`timeout_frames` elements of the stream are ever consulted, and a prefix of
frames yielding no votes (failed reads, no detections, quality or
classification rejections) exhausts the budget and returns `none`. -/
theorem frame_budget_and_per_face_votes :
    (∀ (train : List LabeledVec) (names : List String) (cfg : RecogConfig) (fr : Frame),
        (frameVotes train names cfg fr).length ≤ fr.faces.length) ∧
    (∀ (dataset : FaceDataset) (cfg : RecogConfig) (frames : List Frame),
        recognize_quick dataset cfg frames =
          recognize_quick dataset cfg (frames.take cfg.timeoutFrames)) ∧
    (∀ (dataset : FaceDataset) (train : List LabeledVec) (names : List String)
        (cfg : RecogConfig) (frames : List Frame),
        loadFaceBank dataset = some (train, names) →
        (∀ fr ∈ frames.take cfg.timeoutFrames, frameVotes train names cfg fr = []) →
        recognize_quick dataset cfg frames = none) := by
  refine ⟨?_, ?_, ?_⟩
  · intro train names cfg fr
    unfold frameVotes
    by_cases hok : fr.ok
    · simp only [hok, if_true]
      exact List.length_filterMap_le _ _
    · simp [hok]
  · intro dataset cfg frames
    unfold recognize_quick
    cases loadFaceBank dataset with
    | none => rfl
    | some bank =>
      obtain ⟨train, names⟩ := bank
      rw [List.take_take, min_self]
  · intro dataset train names cfg frames hload hempty
    unfold recognize_quick
    rw [hload]
    show voteLoop train names cfg (List.take cfg.timeoutFrames frames) (fun _ => 0) = none
    rw [voteLoop_eq, flatMap_nil_of_forall _ _ hempty]
    rfl

/-- Witness for amended C8: a failed-read frame consumes the attempt without
a winner, and the two-face frame respects the per-face vote bound. -/
theorem frame_budget_and_per_face_votes_witness :
    recognize_quick dsAldridge defaultRecogConfig [deadFrame] = none ∧
    (frameVotes bankAldridge ["Aldridge"] cfgNeedTwo twoFaceFrame).length
      ≤ twoFaceFrame.faces.length :=
  ⟨frame_budget_and_per_face_votes.2.2 dsAldridge bankAldridge ["Aldridge"]
      defaultRecogConfig [deadFrame] (by decide) (by decide),
   frame_budget_and_per_face_votes.1 bankAldridge ["Aldridge"] cfgNeedTwo twoFaceFrame⟩

/-- C9.  Classifier rejection is monotonic in the threshold: a sample
rejected at threshold `T` is rejected at every smaller threshold `T1`, all
other inputs held equal (the sorted distances do not depend on the
threshold, and `sqrt bestDist > T` together with `T1 < T` forces
`sqrt bestDist > T1`). -/
theorem rejection_monotone_in_threshold (train : List LabeledVec) (testVec : List ℤ)
    (k : Nat) (T T1 : ℤ) (hlt : T1 < T)
    (hrej : knn train testVec k T = some (-1)) :
    knn train testVec k T1 = some (-1) :=
  knn_threshold_monotone train testVec k T T1 hlt hrej

/-- Witness for C9: the distance-5000 sample is rejected at threshold 2600,
hence also at threshold 100. -/
theorem rejection_monotone_in_threshold_witness :
    knn bankAldridge [5000] 1 100 = some (-1) :=
  rejection_monotone_in_threshold bankAldridge [5000] 1 2600 100 (by decide) (by decide)

/-- C10.  A freshly created profile record defaults the calendar permission
to `true` exactly for `"Aldridge"` and to `false` for every other identity;
afterwards, for any identity whose permissions dict exists, the only command
step that can change its calendar permission is a grant or revoke of that
identity issued while the session identity is `"Aldridge"`, and such a
grant (revoke) does set the flag to `true` (`false`) for persona targets. -/
theorem calendar_default_and_aldridge_only_changes :
    (∀ (p : Profiles) (id : String), aget id p.recs = none →
        has_calendar_permission id (ensure_identity_struct p id)
          = decide (id = "Aldridge")) ∧
    (∀ (s : ReplState) (cmd : Cmd) (q : String),
        permsPresent q s.profiles →
        has_calendar_permission q (stepRepl s cmd).profiles
          ≠ has_calendar_permission q s.profiles →
        s.identity = "Aldridge" ∧
          (cmd = Cmd.grantCalendar q ∨ cmd = Cmd.revokeCalendar q)) ∧
    (∀ (s : ReplState) (t : String), s.identity = "Aldridge" → t ∈ PERSONAS →
        has_calendar_permission t (stepRepl s (Cmd.grantCalendar t)).profiles = true ∧
        has_calendar_permission t (stepRepl s (Cmd.revokeCalendar t)).profiles = false) := by
  refine ⟨?_, ?_, ?_⟩
  · intro p id hnone
    simp [ensure_identity_struct, has_calendar_permission, hnone, aget_aset_self,
      emptyPersonaRec, aget]
  · intro s cmd q hq hne
    cases cmd with
    | passive => exact absurd rfl hne
    | lockCmd => exact absurd rfl hne
    | recognize result =>
      exfalso
      apply hne
      cases result with
      | none => rfl
      | some who =>
        by_cases hcond : who ≠ "" ∧ who ∈ PERSONAS
        · simp only [stepRepl, if_pos hcond]
          exact hasCal_ensure (setLastIdentity s.profiles who) who q hq
        · simp only [stepRepl, if_neg hcond]
    | login name =>
      exfalso
      apply hne
      by_cases hcond : name ∈ PERSONAS ∧ pyLower name ≠ "guest"
      · simp only [stepRepl, if_pos hcond]
        exact hasCal_ensure (setLastIdentity s.profiles name) name q hq
      · simp only [stepRepl, if_neg hcond]
    | switchPersona =>
      exfalso
      apply hne
      by_cases h1 : s.identity = "Aldridge" ∨ s.identity = "Professor"
      · simp only [stepRepl, if_pos h1]
        exact hasCal_ensure s.profiles _ q hq
      · by_cases h2 : s.identity = "LOCKED"
        · simp only [stepRepl, if_neg h1, if_pos h2]
        · simp only [stepRepl, if_neg h1, if_neg h2]
    | grantCalendar target =>
      by_cases h1 : s.identity ≠ "Aldridge"
      · exfalso
        apply hne
        simp only [stepRepl, if_pos h1]
      · push_neg at h1
        by_cases h2 : target ∉ PERSONAS
        · exfalso
          apply hne
          simp only [stepRepl, if_neg (not_not_intro h1), if_pos h2]
        · by_cases h3 : q = target
          · subst h3
            exact ⟨h1, Or.inl rfl⟩
          · exfalso
            apply hne
            simp only [stepRepl, if_neg (not_not_intro h1), if_neg h2]
            rw [hasCal_setCalendarFlag_ne _ target q true h3]
            exact hasCal_ensure s.profiles target q hq
    | revokeCalendar target =>
      by_cases h1 : s.identity ≠ "Aldridge"
      · exfalso
        apply hne
        simp only [stepRepl, if_pos h1]
      · push_neg at h1
        by_cases h2 : target ∉ PERSONAS
        · exfalso
          apply hne
          simp only [stepRepl, if_neg (not_not_intro h1), if_pos h2]
        · by_cases h3 : q = target
          · subst h3
            exact ⟨h1, Or.inr rfl⟩
          · exfalso
            apply hne
            simp only [stepRepl, if_neg (not_not_intro h1), if_neg h2]
            rw [hasCal_setCalendarFlag_ne _ target q false h3]
            exact hasCal_ensure s.profiles target q hq
    | ttsSet b =>
      exfalso
      apply hne
      by_cases h1 : s.identity ∈ PERSONAS
      · simp only [stepRepl, if_pos h1]
        rw [hasCal_setTTSEnabled]
        exact hasCal_ensure s.profiles s.identity q hq
      · simp only [stepRepl, if_neg h1]
    | voiceIdxSet idx =>
      exfalso
      apply hne
      by_cases h1 : s.identity ∈ PERSONAS
      · simp only [stepRepl, if_pos h1]
        rw [hasCal_setTTSVoiceIndex]
        exact hasCal_ensure s.profiles s.identity q hq
      · simp only [stepRepl, if_neg h1]
    | rateSet rate =>
      exfalso
      apply hne
      by_cases h1 : s.identity ∈ PERSONAS
      · simp only [stepRepl, if_pos h1]
        rw [hasCal_setTTSRate]
        exact hasCal_ensure s.profiles s.identity q hq
      · simp only [stepRepl, if_neg h1]
    | setPlace key value =>
      exfalso
      apply hne
      by_cases h1 : lockedLike s.identity = true
      · simp only [stepRepl, h1, if_true]
      · simp only [stepRepl, Bool.not_eq_true] at h1 ⊢
        simp only [h1, Bool.false_eq_true, if_false]
        rw [hasCal_setPlaceEntry]
        exact hasCal_ensure s.profiles s.identity q hq
  · intro s t hid ht
    constructor
    · simp only [stepRepl, if_neg (not_not_intro hid), if_neg (not_not_intro ht)]
      exact hasCal_setCalendarFlag_self _ t true (ensure_aget_isSome s.profiles t)
    · simp only [stepRepl, if_neg (not_not_intro hid), if_neg (not_not_intro ht)]
      exact hasCal_setCalendarFlag_self _ t false (ensure_aget_isSome s.profiles t)

/-- Witness for C10: the Guest default evaluates to `false`, a concrete
permission change (granting Professor from an Aldridge session) satisfies
the only-Aldridge-grants characterization, and the grant sets the flag. -/
theorem calendar_default_and_aldridge_only_changes_witness :
    (has_calendar_permission "Guest" (ensure_identity_struct emptyProfiles "Guest")
        = decide ("Guest" = "Aldridge")) ∧
    ((⟨"Aldridge", profProfessor⟩ : ReplState).identity = "Aldridge" ∧
      (Cmd.grantCalendar "Professor" = Cmd.grantCalendar "Professor" ∨
        Cmd.grantCalendar "Professor" = Cmd.revokeCalendar "Professor")) ∧
    has_calendar_permission "Professor"
      (stepRepl ⟨"Aldridge", emptyProfiles⟩ (Cmd.grantCalendar "Professor")).profiles = true :=
  ⟨calendar_default_and_aldridge_only_changes.1 emptyProfiles "Guest" rfl,
   calendar_default_and_aldridge_only_changes.2.1 ⟨"Aldridge", profProfessor⟩
     (Cmd.grantCalendar "Professor") "Professor" (by decide) (by decide),
   (calendar_default_and_aldridge_only_changes.2.2 ⟨"Aldridge", emptyProfiles⟩
     "Professor" rfl (by decide)).1⟩

end LocalAssistant
